import Mathlib

/-!
Verification of the An-Najah institutional-repository query pipeline.

This file gives a shallow embedding of the query-signal extraction and
hybrid-retrieval-query construction pipeline of the repository
(`src/query_utils/query_preprocessor.py`, `src/query_utils/full_text_query.py`,
`src/query_utils/suggest_query.py`, `src/opensearch/mapping.py`,
`src/services/open_seach_insertion.py`,
`src/extracters/geopy_geo_location_finder.py`), and proves the behavioural
claims about it.  Python strings are modelled as `String`/`List Char`,
Python numbers as `Nat`/`Int`/`ℚ`, JSON-like request bodies as an explicit
`Json` inductive, and external collaborators (NLP extractors, geocoder,
sentence-embedding model, tokenizer, `json.loads`) as function parameters.
-/

namespace NajahIR

/-! ## Python-style string primitives -/

/-- Python `\s` (ASCII whitespace as used by `str.strip` / `re` on the
inputs in scope): space, tab, newline, carriage return, vertical tab,
form feed. -/
def isPySpace (c : Char) : Bool :=
  c = ' ' || c = '\t' || c = '\n' || c = '\r' || c = '\x0b' || c = '\x0c'

/-- Regex word character (`\w`, ASCII fragment): letters, digits, underscore. -/
def isWordChar (c : Char) : Bool :=
  c.isAlphanum || c = '_'

def isWordOpt : Option Char → Bool
  | none => false
  | some c => isWordChar c

/-- Python `str.strip()` on a character list. -/
def pyStripL (l : List Char) : List Char :=
  ((l.dropWhile isPySpace).reverse.dropWhile isPySpace).reverse

/-- Python `str.strip()`. -/
def pyStrip (s : String) : String :=
  ⟨pyStripL s.data⟩

/-- Python `str.lower()` (ASCII fragment). -/
def pyLower (s : String) : String :=
  ⟨s.data.map Char.toLower⟩

/-- Python `str.isupper()`: at least one cased character and no cased
character is lowercase (ASCII fragment). -/
def pyIsUpper (s : String) : Bool :=
  s.data.any Char.isAlpha && s.data.all (fun c => !c.isAlpha || c.isUpper)

/-- Value of a decimal digit character. -/
def digitVal (c : Char) : Nat :=
  c.toNat - '0'.toNat

/-- Python `int(...)` on a string of decimal digits. -/
def pyInt (l : List Char) : Nat :=
  l.foldl (fun a c => a * 10 + digitVal c) 0

/-- `sub` occurs as a contiguous substring of `l` (Python `in`). -/
def containsSub (sub l : List Char) : Bool :=
  match l with
  | [] => sub = []
  | _ :: rest => sub.isPrefixOf l || containsSub sub rest

/-- Python `text.split(sep)` for a single-character separator. -/
def pySplit (sep : Char) : List Char → List (List Char)
  | [] => [[]]
  | c :: rest =>
    if c = sep then [] :: pySplit sep rest
    else
      match pySplit sep rest with
      | [] => [[c]]
      | p :: ps => (c :: p) :: ps

/-- Order-preserving de-duplication keeping the first occurrence
(the `seen`-set loop shared by the Python helpers). -/
def dedupeGo (seen : List String) : List String → List String
  | [] => []
  | x :: rest =>
    if x ∈ seen then dedupeGo seen rest
    else x :: dedupeGo (x :: seen) rest

def dedupeKeepFirst (l : List String) : List String :=
  dedupeGo [] l

/-! ## `query_preprocessor.py`: temporal-signal helpers -/

/-- `BAD_LOCATION_WORDS` from `query_preprocessor.py`. -/
def BAD_LOCATION_WORDS : List String :=
  ["management", "system", "model", "project", "strategy", "analysis",
   "spss", "tam", "tpb", "pma", "csr"]

/-- Regex `\d` (ASCII decimal digit). -/
def isDigitChar (c : Char) : Bool :=
  c = '0' || c = '1' || c = '2' || c = '3' || c = '4' ||
  c = '5' || c = '6' || c = '7' || c = '8' || c = '9'

/-- Match `(19|20)\d{2}` at the head of the list, returning the year value
and the rest of the input. -/
def matchYearAt : List Char → Option (Nat × List Char)
  | c1 :: c2 :: c3 :: c4 :: rest =>
    if ((c1 = '1' && c2 = '9') || (c1 = '2' && c2 = '0'))
        && isDigitChar c3 && isDigitChar c4 then
      some (digitVal c1 * 1000 + digitVal c2 * 100 + digitVal c3 * 10 + digitVal c4, rest)
    else none
  | _ => none

/-- `YEAR_RE.search`: does `(19|20)\d{2}` occur anywhere in the text? -/
def hasYearSub (l : List Char) : Bool :=
  match l with
  | [] => false
  | _ :: rest => (matchYearAt l).isSome || hasYearSub rest

/-- `filter_safe_temporals` from `query_preprocessor.py`: keep stripped,
non-empty strings without `%` that contain a 4-digit-year pattern. -/
def filter_safe_temporals (temporals : List String) : List String :=
  temporals.foldr
    (fun t0 out =>
      let t := pyStrip t0
      if t = "" then out
      else if containsSub ['%'] t.data then out
      else if hasYearSub t.data then t :: out
      else out)
    []

/-- `re.fullmatch(r"(19|20)\d{2}\s*-\s*(19|20)\d{2}", t)`, returning the two
parsed year values. -/
def yearRangeFullmatch (l : List Char) : Option (Nat × Nat) :=
  match matchYearAt l with
  | none => none
  | some (y1, r1) =>
    match r1.dropWhile isPySpace with
    | c :: r3 =>
      if c = '-' then
        match matchYearAt (r3.dropWhile isPySpace) with
        | some (y2, r5) => if r5 = [] then some (y1, y2) else none
        | none => none
      else none
    | [] => none

/-- The per-element body of the `expand_year_ranges` loop: strip, try the
full-match year-range pattern, and either enumerate the years (for ranges
spanning at most 50 years in the right order) or emit the stripped string. -/
def expandElem (t0 : String) : List String :=
  let t := pyStrip t0
  match yearRangeFullmatch t.data with
  | some _ =>
    let parts := pySplit '-' t.data
    let start := pyInt (pyStripL (parts.getD 0 []))
    let stop := pyInt (pyStripL (parts.getD 1 []))
    if start ≤ stop ∧ stop - start ≤ 50 then
      (List.range' start (stop + 1 - start)).map (fun y => toString y)
    else [t]
  | none => [t]

/-- `expand_year_ranges` from `query_preprocessor.py`. -/
def expand_year_ranges (temporals : List String) : List String :=
  dedupeKeepFirst (temporals.flatMap expandElem)

/-! ## `re.sub(pattern, " ", text)` machinery

A matcher receives the previous character of the original text (for `\b`
word-boundary checks) and the remaining input, and returns the length of
the match at the current position, if any.  `reSubGo` scans left to right,
replaces each leftmost non-overlapping match by a single space, and
resumes after it — the semantics of `re.sub(p, " ", t)` for the patterns
used here (which never match the empty string). -/

def Matcher : Type :=
  Option Char → List Char → Option Nat

/-- The scan, with a fuel parameter for structural recursion (every step
consumes at least one character, so a fuel of `l.length` is enough; on
exhausted fuel the rest is left unchanged, which never happens from
`reSub`). -/
def reSubGo (m : Matcher) : Nat → Option Char → List Char → List Char
  | _, _, [] => []
  | 0, _, l => l
  | fuel + 1, prev, c :: rest =>
    match m prev (c :: rest) with
    | some n =>
      if 1 ≤ n then
        ' ' :: reSubGo m fuel (((c :: rest).take n).getLast?) ((c :: rest).drop n)
      else
        c :: reSubGo m fuel (some c) rest
    | none => c :: reSubGo m fuel (some c) rest

def reSub (m : Matcher) (l : List Char) : List Char :=
  reSubGo m l.length none l

/-- Matcher for `\b(19|20)\d{2}\s*[-–]\s*(19|20)\d{2}\b`. -/
def yearRangeMatcher : Matcher := fun prev l =>
  if isWordOpt prev then none
  else
    match matchYearAt l with
    | none => none
    | some (_, r1) =>
      let ws1 := r1.takeWhile isPySpace
      match r1.dropWhile isPySpace with
      | c :: r2 =>
        if c = '-' || c = '–' then
          let ws2 := r2.takeWhile isPySpace
          match matchYearAt (r2.dropWhile isPySpace) with
          | some (_, r3) =>
            if isWordOpt r3.head? then none
            else some (4 + ws1.length + 1 + ws2.length + 4)
          | none => none
        else none
      | [] => none

/-- Matcher for `\b(19|20)\d{2}\s*(to|until|till)\s*(19|20)\d{2}\b`
(with `re.IGNORECASE`). -/
def yearToMatcher : Matcher := fun prev l =>
  if isWordOpt prev then none
  else
    match matchYearAt l with
    | none => none
    | some (_, r1) =>
      let ws1 := r1.takeWhile isPySpace
      let r2 := r1.dropWhile isPySpace
      let low := (r2.take 5).map Char.toLower
      let kwLen : Option Nat :=
        if ['t', 'o'].isPrefixOf low then some 2
        else if ['u', 'n', 't', 'i', 'l'].isPrefixOf low then some 5
        else if ['t', 'i', 'l', 'l'].isPrefixOf low then some 4
        else none
      match kwLen with
      | none => none
      | some k =>
        let r3 := r2.drop k
        let ws2 := r3.takeWhile isPySpace
        match matchYearAt (r3.dropWhile isPySpace) with
        | some (_, r4) =>
          if isWordOpt r4.head? then none
          else some (4 + ws1.length + k + ws2.length + 4)
        | none => none

/-- Matcher for `\b(19|20)\d{2}\b`. -/
def standaloneYearMatcher : Matcher := fun prev l =>
  if isWordOpt prev then none
  else
    match matchYearAt l with
    | none => none
    | some (_, rest) =>
      if isWordOpt rest.head? then none else some 4

/-- Collapse every whitespace run to a single space:
`re.sub(r"\s+", " ", t)`. -/
def collapseWsGo : Bool → List Char → List Char
  | _, [] => []
  | inRun, c :: rest =>
    if isPySpace c then
      if inRun then collapseWsGo true rest
      else ' ' :: collapseWsGo true rest
    else c :: collapseWsGo false rest

def collapseWs (l : List Char) : List Char :=
  collapseWsGo false l

def isFixablePunct (c : Char) : Bool :=
  c = ',' || c = '.' || c = ';' || c = ':' || c = '!' || c = '?'

/-- Does the text, after skipping whitespace, start with one of the
listed punctuation characters? -/
def punctAfterWs (l : List Char) : Bool :=
  match l.dropWhile isPySpace with
  | p :: _ => isFixablePunct p
  | [] => false

/-- `re.sub(r"\s+([,.;:!?])", r"\1", t)`: drop every whitespace run that
directly precedes one of the listed punctuation characters (each
whitespace character is dropped exactly when the remaining whitespace run
is followed by such a punctuation character). -/
def fixPunct : List Char → List Char
  | [] => []
  | c :: rest =>
    if isPySpace c && punctAfterWs rest then fixPunct rest
    else c :: fixPunct rest

/-- `strip_year_like_tokens` from `query_preprocessor.py`: remove
`YYYY-YYYY` ranges, `YYYY to YYYY` forms and standalone `YYYY` tokens,
then normalize whitespace. -/
def strip_year_like_tokens (text : String) : String :=
  if text = "" then ""
  else
    let t := text.data
    let t := reSub yearRangeMatcher t
    let t := reSub yearToMatcher t
    let t := reSub standaloneYearMatcher t
    ⟨pyStripL (collapseWs t)⟩

/-- Matcher for `\b<phrase>\b` with `re.IGNORECASE` (the phrase matched
literally, as produced by `re.escape`).  Word boundaries at the edges are
relative to the word-ness of the phrase's first/last character.  Empty
phrases are treated as non-matching. -/
def phraseMatcher (phrase : List Char) : Matcher := fun prev l =>
  match phrase with
  | [] => none
  | first :: _ =>
    if (phrase.map Char.toLower).isPrefixOf (l.map Char.toLower)
        && (isWordOpt prev != isWordChar first)
        && (isWordChar (phrase.getLastD first) != isWordOpt (l.drop phrase.length).head?) then
      some phrase.length
    else none

/-- Stable insertion preserving input order among equal lengths, for
`sorted(phrases, key=len, reverse=True)`. -/
def insertByLenDesc (x : String) : List String → List String
  | [] => [x]
  | y :: ys => if x.length ≤ y.length then y :: insertByLenDesc x ys else x :: y :: ys

def sortByLenDesc (l : List String) : List String :=
  l.foldl (fun acc x => insertByLenDesc x acc) []

/-- `clean_query_text` from `query_preprocessor.py`: remove every extracted
temporal/location phrase (whole-word, case-insensitive, longest first),
then normalize whitespace and spacing before punctuation.  The Python
`set` of phrases is modelled as an order-preserving de-duplicated list. -/
def clean_query_text (query : String) (temporal_expressions locations : List String) :
    String :=
  let phrases :=
    dedupeKeepFirst
      ((temporal_expressions.filter (· ≠ "")).map pyStrip
        ++ (locations.filter (· ≠ "")).map pyStrip)
  let sorted := sortByLenDesc phrases
  let text := sorted.foldl (fun txt p => reSub (phraseMatcher p.data) txt) query.data
  let text := pyStripL (collapseWs text)
  ⟨fixPunct text⟩

/-- `build_lexical_text` from `query_preprocessor.py`: remove noisy (non
year-safe) temporal phrases, keep locations, then strip all year-like
tokens.  The Python `set(...)` of stripped temporals is modelled as an
order-preserving de-duplicated list. -/
def build_lexical_text (query : String) (temporals locations : List String) : String :=
  let safe_temporals := expand_year_ranges (filter_safe_temporals temporals)
  let temporals_set := dedupeKeepFirst (temporals.map pyStrip)
  let noisy_temporals := temporals_set.filter (fun t => t ≠ "" && t ∉ safe_temporals)
  let text := clean_query_text query noisy_temporals []
  strip_year_like_tokens text

/-- `is_probable_location` from `query_preprocessor.py`. -/
def is_probable_location (name : String) : Bool :=
  let t := pyStrip name
  if t = "" then false
  else if t.length ≤ 2 then false
  else if pyIsUpper t && t.length ≤ 6 then false
  else if BAD_LOCATION_WORDS.any (fun w => containsSub w.data (pyLower t).data) then false
  else true

/-! ## JSON model for the wire-level request bodies -/

/-- JSON-like values; numbers are modelled as rationals. -/
inductive Json where
  | str (s : String)
  | num (q : ℚ)
  | bool (b : Bool)
  | arr (xs : List Json)
  | obj (fields : List (String × Json))

/-- Look up a key in a JSON object (first occurrence). -/
def Json.getKey : Json → String → Option Json
  | .obj fields, k =>
    match fields.find? (fun f => f.1 = k) with
    | some f => some f.2
    | none => none
  | _, _ => none

/-! ## `full_text_query.py`: hybrid query builder -/

/-- An entry of the `geo_refs` argument of `build_hybrid_query_pipeline`:
a Python dict possibly holding `placeName`, `lat`/`lon`, and/or a nested
`coordinates` dict. -/
structure GeoRefInput where
  placeName : Option String := none
  lat : Option ℚ := none
  lon : Option ℚ := none
  coordinates : Option (Option ℚ × Option ℚ) := none

/-- The `place_name`/`lat`/`lon` resolution at the top of the
`for ref in geo_refs` loop: strip the name, and fall back to the nested
`coordinates` dict when `lat` or `lon` is missing. -/
def resolveRef (ref : GeoRefInput) : String × Option ℚ × Option ℚ :=
  let place_name := pyStrip (ref.placeName.getD "")
  if ref.lat = none ∨ ref.lon = none then
    let coords := ref.coordinates.getD (none, none)
    (place_name, coords.1, coords.2)
  else
    (place_name, ref.lat, ref.lon)

/-- The nested place-name match boost built per geo ref with a non-empty
place name (boost 5.0). -/
def placeNameClause (place_name : String) : Json :=
  .obj [("nested", .obj [
    ("path", .str "geoReferences"),
    ("query", .obj [
      ("match", .obj [
        ("geoReferences.placeName", .obj [
          ("query", .str place_name),
          ("boost", .num 5.0)])])])])]

/-- The `geo_distance` leaf built per geo ref with coordinates. -/
def geoDistanceLeaf (geo_distance_str : String) (lat lon : ℚ) : Json :=
  .obj [("geo_distance", .obj [
    ("distance", .str geo_distance_str),
    ("geoReferences.coordinates", .obj [
      ("lat", .num lat),
      ("lon", .num lon)])])]

/-- The `for ref in geo_refs` loop: accumulate place-name boosts and
geo-distance leaves in iteration order. -/
def geoClauses (geo_distance_str : String) :
    List GeoRefInput → List Json × List Json
  | [] => ([], [])
  | ref :: rest =>
    let (pl, nd) := geoClauses geo_distance_str rest
    let (place_name, lat?, lon?) := resolveRef ref
    let pl' := if place_name ≠ "" then placeNameClause place_name :: pl else pl
    let nd' :=
      match lat?, lon? with
      | some lat, some lon => geoDistanceLeaf geo_distance_str lat lon :: nd
      | _, _ => nd
    (pl', nd')

/-- The temporal `constant_score` boost (boost 0.6) over the expanded safe
years. -/
def temporalBoostClause (safe : List String) : Json :=
  .obj [("constant_score", .obj [
    ("filter", .obj [("terms", .obj [("temporalExpressions", .arr (safe.map .str))])]),
    ("boost", .num 0.6)])]

/-- The geo-distance `constant_score` boost (boost 2.0) wrapping all
per-coordinate `geo_distance` leaves under a nested `should` with
`minimum_should_match = 0`. -/
def geoDistanceBoostClause (nested_distance_should : List Json) : Json :=
  .obj [("constant_score", .obj [
    ("filter", .obj [
      ("nested", .obj [
        ("path", .str "geoReferences"),
        ("query", .obj [
          ("bool", .obj [
            ("should", .arr nested_distance_should),
            ("minimum_should_match", .num 0)])])])]),
    ("boost", .num 2.0)])]

/-- The full `should_boosts` list assembled by
`build_hybrid_query_pipeline`: temporal boost (when safe years exist),
then the geo-distance boost, then the place-name boosts. -/
def shouldBoostsOf (temporal_expressions : List String)
    (geo_refs : List GeoRefInput) (geo_distance_str : String) : List Json :=
  let safe := expand_year_ranges (filter_safe_temporals temporal_expressions)
  let temporalPart := if safe.isEmpty then [] else [temporalBoostClause safe]
  if geo_refs.isEmpty then temporalPart
  else
    let (geo_place_should, nested_distance_should) := geoClauses geo_distance_str geo_refs
    let distancePart :=
      if nested_distance_should.isEmpty then []
      else [geoDistanceBoostClause nested_distance_should]
    temporalPart ++ distancePart ++ geo_place_should

/-- `_wrap_with_filters` from `full_text_query.py`. -/
def wrap_with_filters (q : Json) (filters should_boosts : List Json) : Json :=
  if filters.isEmpty && should_boosts.isEmpty then q
  else
    Json.obj [("bool", Json.obj
      ([("must", Json.arr [q])]
        ++ (if filters.isEmpty then [] else [("filter", Json.arr filters)])
        ++ (if should_boosts.isEmpty then []
            else [("should", Json.arr should_boosts),
                  ("minimum_should_match", Json.num 0)])))]

/-- The semantic kNN leaf query. -/
def knnLeaf (lang : String) (semantic_query_vector : List ℚ) (k : ℚ)
    (num_candidates : Option ℤ) : Json :=
  .obj [("knn", .obj [
    (String.append "abstract_vector." lang, .obj [
      ("vector", .arr (semantic_query_vector.map .num)),
      ("k", .num k),
      ("method_parameters", .obj [
        ("ef_search", .num (num_candidates.getD 100))])])])]

/-- The lexical BM25 `multi_match` leaf query. -/
def multiMatchLeaf (lang : String) (lexical25_text : String) : Json :=
  .obj [("multi_match", .obj [
    ("query", .str lexical25_text),
    ("fields", .arr [
      .str (String.append (String.append "title." lang) "^3"),
      .str (String.append (String.append "abstract." lang) "^2")]),
    ("type", .str "best_fields"),
    ("minimum_should_match", .str "60%")])]

/-- `build_hybrid_query_pipeline` from `full_text_query.py`
(`None` optional arguments are modelled as `Option.none`; the `filters`
list is empty, as in the source). -/
def build_hybrid_query_pipeline (lexical25_text : String)
    (semantic_query_vector : List ℚ)
    (temporal_expressions : Option (List String) := none)
    (geo_refs : Option (List GeoRefInput) := none)
    (size : ℚ := 10) (k : ℚ := 50) (num_candidates : Option ℤ := some 100)
    (geo_distance_str : String := "50km") (lang : String := "en") : Json :=
  let temporal_expressions := temporal_expressions.getD []
  let geo_refs := geo_refs.getD []
  let filters : List Json := []
  let should_boosts := shouldBoostsOf temporal_expressions geo_refs geo_distance_str
  let hybrid_query : Json :=
    .obj [("hybrid", .obj [
      ("queries", .arr [
        wrap_with_filters (knnLeaf lang semantic_query_vector k num_candidates)
          filters should_boosts,
        wrap_with_filters (multiMatchLeaf lang lexical25_text)
          filters should_boosts])])]
  .obj [
    ("size", .num size),
    ("_source", .obj [("excludes", .arr [.str "abstract_vector.en", .str "abstract_vector.ar"])]),
    ("query", hybrid_query)]

/-! ## `suggest_query.py` -/

/-- `build_suggest_query` from `suggest_query.py`. -/
def build_suggest_query (pre : String) (fetch_size : ℚ := 60) : Json :=
  let pre := pyStrip pre
  .obj [
    ("size", .num fetch_size),
    ("track_total_hits", .bool false),
    ("terminate_after", .num 2000),
    ("_source", .arr [.str "title", .str "author"]),
    ("query", .obj [
      ("bool", .obj [
        ("should", .arr [
          .obj [("multi_match", .obj [
            ("query", .str pre),
            ("type", .str "phrase_prefix"),
            ("fields", .arr [.str "title.en^4", .str "title.ar^4", .str "author^2"]),
            ("boost", .num 3.0)])],
          .obj [("multi_match", .obj [
            ("query", .str pre),
            ("fields", .arr [.str "title.en^4", .str "title.ar^4", .str "author^2"]),
            ("operator", .str "and"),
            ("fuzziness", .str "AUTO"),
            ("prefix_length", .num 2),
            ("max_expansions", .num 50)])]])])])]

/-! ## `mapping.py`: `ProjectMapping.chunk_text`

The sentence-transformer tokenizer is a collaborator, passed in as
`tokenize`/`decode` functions.  The `while start < len(token_ids)` loop is
modelled with an explicit fuel budget; `none` means the loop did not
finish within the given number of iterations. -/

/-- Normalize a Python slice index to `[0, n]`. -/
def pyNormIdx (n : Nat) (i : Int) : Nat :=
  if i < 0 then (i + n).toNat else min i.toNat n

/-- Python `l[a:b]`. -/
def pySlice (l : List α) (a b : Int) : List α :=
  (l.take (pyNormIdx l.length b)).drop (pyNormIdx l.length a)

/-- One `while` loop of `chunk_text`, with `fuel` bounding the number of
iterations: at each step emit `token_ids[start:min(start+max_tokens, n)]`
and advance `start` by `max_tokens - overlap`. -/
def chunkLoopFuel (token_ids : List Nat) (max_tokens overlap : Nat) :
    Nat → Int → Option (List (List Nat))
  | fuel, start =>
    if start < (token_ids.length : Int) then
      match fuel with
      | 0 => none
      | fuel + 1 =>
        (chunkLoopFuel token_ids max_tokens overlap fuel
            (start + ((max_tokens : Int) - (overlap : Int)))).map
          (fun ws =>
            pySlice token_ids start (min (start + (max_tokens : Int)) (token_ids.length : Int)) :: ws)
    else some []

/-- `ProjectMapping.chunk_text` from `mapping.py`.  A fuel of
`token_ids.length` is enough whenever `overlap < max_tokens` (proved
below); `none` models a non-terminating loop. -/
def chunk_text (tokenize : String → List Nat) (decode : List Nat → String)
    (text : String) (max_tokens : Nat := 450) (overlap : Nat := 50) :
    Option (List String) :=
  if text = "" then some []
  else
    let token_ids := tokenize text
    (chunkLoopFuel token_ids max_tokens overlap token_ids.length 0).map
      (fun ws => ws.map decode)

/-- Reference window function: the windows the loop produces when the
step is positive, defined by well-founded recursion (the advance is
`max step 1`, which equals `step` in the in-scope case `step ≥ 1`). -/
def windowsFrom (token_ids : List Nat) (max_tokens step : Nat) (start : Nat) :
    List (List Nat) :=
  if h : start < token_ids.length then
    (token_ids.take (min (start + max_tokens) token_ids.length)).drop start
      :: windowsFrom token_ids max_tokens step (start + max step 1)
  else []
termination_by token_ids.length - start
decreasing_by
  have : 1 ≤ max step 1 := le_max_right step 1
  omega

/-! ## `geopy_geo_location_finder.py`

The network call through geopy's rate-limited Nominatim client is a
collaborator; its outcome (a result, an empty result, or one of the
exception classes handled by `_geocode_single_place`) is an oracle input. -/

structure GeoCoordinates where
  lat : ℚ
  lon : ℚ

structure GeoReference where
  placeName : String
  coordinates : Option GeoCoordinates := none

inductive GeocodeOutcome where
  | found (lat lon : ℚ)
  | noResult
  | timedOut
  | unavailable
  | serviceError
  | unexpectedError

/-- `GeopyGeoLocationFinder._geocode_single_place`: a found location
becomes a `GeoReference` with coordinates; an empty result and every
handled exception (timeout, unavailable, service error, unexpected)
collapse to `none`. -/
def geocode_single_place (geocode : String → GeocodeOutcome)
    (place_name : String) : Option GeoReference :=
  match geocode place_name with
  | .found lat lon =>
    some { placeName := place_name, coordinates := some { lat := lat, lon := lon } }
  | .noResult => none
  | .timedOut => none
  | .unavailable => none
  | .serviceError => none
  | .unexpectedError => none

/-- The `{"placeName": ..., "lat": ..., "lon": ...}` dict appended per
successfully geocoded place (the coordinates of a successful geocode are
always present). -/
def toGeoRefInput (geo : GeoReference) : GeoRefInput :=
  let c := geo.coordinates.getD { lat := 0, lon := 0 }
  { placeName := some geo.placeName, lat := some c.lat, lon := some c.lon }

/-- The geo loop inside `extractors` in `query_preprocessor.py`, also
returning the list of geocoded place names (the geocoder call log).
Implausible candidates are skipped without a call; failures are skipped;
the loop breaks once 3 references have been accumulated. -/
def extractorsGeoGo (geocode : String → GeocodeOutcome)
    (acc : List GeoRefInput) :
    List String → List GeoRefInput × List String
  | [] => (acc, [])
  | location :: rest =>
    if ¬ is_probable_location location then
      extractorsGeoGo geocode acc rest
    else
      match geocode_single_place geocode location with
      | none =>
        let (refs, calls) := extractorsGeoGo geocode acc rest
        (refs, location :: calls)
      | some geo =>
        let acc' := acc ++ [toGeoRefInput geo]
        if 3 ≤ acc'.length then (acc', [location])
        else
          let (refs, calls) := extractorsGeoGo geocode acc' rest
          (refs, location :: calls)

/-- `extractors` from `query_preprocessor.py`, with the NLP extractors and
the geocoder as collaborator functions.  Returns
`(temporals, geo_refs, locations)`. -/
def extractors (temporal_extract location_extract : String → String → List String)
    (geocode : String → GeocodeOutcome) (q lang : String) :
    List String × List GeoRefInput × List String :=
  let temporals := temporal_extract q lang
  let locations := location_extract q lang
  (temporals, (extractorsGeoGo geocode [] locations).1, locations)

/-! ## `open_seach_insertion.py`: ingestion pipeline

DTOs are mirrored from `src/dtos`: `LocalizedText` holds optional
strings, while `LocalizedVector` holds plain `list[float]` fields with
empty-list defaults (absence is not representable there).  HTML
sanitization (BeautifulSoup), `langdetect`, the NLP extractors, the
geocoding finder, the tokenizer and the embedding model are
collaborators. -/

structure LocalizedText where
  en : Option String := none
  ar : Option String := none

structure LocalizedVector where
  en : List ℚ := []
  ar : List ℚ := []

inductive PubValue where
  | dateV (y m d : Nat)
  | strV (s : String)

/-- Input shapes of the raw `publicationDate` field. -/
inductive PubInput where
  | nullV
  | dateIn (y m d : Nat)
  | intIn (y : Nat)
  | strIn (s : String)

/-- `OpenSearchInsertion._parse_publication_date`. -/
def parse_publication_date : PubInput → Option PubValue
  | .nullV => none
  | .dateIn y m d => some (.dateV y m d)
  | .intIn y => some (.dateV y 1 1)
  | .strIn s =>
    let v := pyStrip s
    if v.data ≠ [] ∧ v.data.all Char.isDigit ∧ v.length = 4 then
      if 1 ≤ pyInt v.data then some (.dateV (pyInt v.data) 1 1) else none
    else if v = "" then none
    else some (.strV v)

structure ArticleDTO where
  collection : String
  bitstream_uuid : String
  chunk_id : Nat
  title : LocalizedText
  abstract : LocalizedText
  abstract_vector : LocalizedVector
  author : List String
  hasFiles : Bool
  publicationDate : Option PubValue
  geoReferences : List GeoReference
  temporalExpressions : List String

/-- A language-keyed dict of arrays of raw strings (`title`/`abstract` in
an ingestion line). -/
structure LocArrays where
  en : List String := []
  ar : List String := []

/-- A parsed ingestion line. -/
structure Record where
  collection : String := ""
  bitstream_uuid : String := ""
  title : LocArrays := {}
  abstract : LocArrays := {}
  author : List String := []
  hasFiles : Bool := false
  publicationDate : PubInput := .nullV

/-- External collaborators of `OpenSearchInsertion`. -/
structure Collaborators where
  sanitize : String → String
  detect : String → Option String
  temporal_extract : String → String → List String
  location_extract : String → String → List String
  geo_points : List String → List GeoReference
  tokenize : String → List Nat
  detokenize : List Nat → String
  encode : String → List ℚ
  model_dimension : Nat

/-- `OpenSearchInsertion.process_dict`: sanitize and language-detect each
value (the dict's values are iterated in `en`, `ar` order); a later value
detected with the same language overwrites an earlier one. -/
def process_dict (sanitize : String → String) (detect : String → Option String)
    (obj : LocArrays) : LocalizedText :=
  [obj.en, obj.ar].foldl
    (fun detected value =>
      match value with
      | [] => detected
      | v0 :: _ =>
        let clean_text := sanitize v0
        if clean_text = "" then detected
        else
          match detect clean_text with
          | none => detected
          | some lang =>
            if lang = "en" then { detected with en := some clean_text }
            else if lang = "ar" then { detected with ar := some clean_text }
            else detected)
    {}

/-- `itertools.zip_longest` with `fillvalue=None`. -/
def zipLongest : List α → List β → List (Option α × Option β)
  | [], ys => ys.map (fun y => (none, some y))
  | x :: xs, [] => (some x, none) :: zipLongest xs []
  | x :: xs, y :: ys => (some x, some y) :: zipLongest xs ys

/-- Python truthiness of an optional string. -/
def pyTruthyStr : Option String → Bool
  | none => false
  | some s => s ≠ ""

/-- The per-chunk `LocalizedVector` built in the embedding loop of
`indexing_pipeline`: a chunk side without (truthy) text gets an empty
list, not an absent value. -/
def buildAbstractVector (encode : String → List ℚ) (chunk : LocalizedText) :
    LocalizedVector :=
  { en := if pyTruthyStr chunk.en then encode (chunk.en.getD "") else [],
    ar := if pyTruthyStr chunk.ar then encode (chunk.ar.getD "") else [] }

/-- `OpenSearchInsertion.indexing_pipeline` (the Python `set(...)` of
extractor outputs is modelled as an order-preserving de-duplicated
list). -/
def indexing_pipeline (C : Collaborators) (obj : Record) : List ArticleDTO :=
  let title_dto := process_dict C.sanitize C.detect obj.title
  let abstract_dict := process_dict C.sanitize C.detect obj.abstract
  let en_temporal := C.temporal_extract (abstract_dict.en.getD "") "en"
  let ar_temporal := C.temporal_extract (abstract_dict.ar.getD "") "ar"
  let temporal_expressions := dedupeKeepFirst (en_temporal ++ ar_temporal)
  let en_geo := C.location_extract (abstract_dict.en.getD "") "en"
  let ar_geo := C.location_extract (abstract_dict.ar.getD "") "ar"
  let geo_locations := dedupeKeepFirst (en_geo ++ ar_geo)
  let geo_references := C.geo_points geo_locations
  let en_chunks := (chunk_text C.tokenize C.detokenize (abstract_dict.en.getD "") 450 50).getD []
  let ar_chunks := (chunk_text C.tokenize C.detokenize (abstract_dict.ar.getD "") 450 50).getD []
  let combined_chunks := (zipLongest en_chunks ar_chunks).map (fun p => LocalizedText.mk p.1 p.2)
  combined_chunks.enum.map (fun p =>
    { collection := obj.collection,
      bitstream_uuid := obj.bitstream_uuid,
      chunk_id := p.1,
      title := title_dto,
      abstract := p.2,
      abstract_vector := buildAbstractVector C.encode p.2,
      author := obj.author,
      hasFiles := obj.hasFiles,
      publicationDate := parse_publication_date obj.publicationDate,
      geoReferences := geo_references,
      temporalExpressions := temporal_expressions })

/-- The vector-dropping step of `generate_documents_from_json_stream`:
the dumped `abstract_vector` dict loses each empty or
dimension-mismatched language key, and disappears entirely when no key
remains. -/
def dropVectorKeys (model_dimension : Nat) (vec : LocalizedVector) :
    Option (List (String × List ℚ)) :=
  let f0 : List (String × List ℚ) := [("en", vec.en), ("ar", vec.ar)]
  let f1 := if vec.en.isEmpty || vec.en.length ≠ model_dimension then
      f0.filter (fun p => p.1 ≠ "en")
    else f0
  let f2 := if vec.ar.isEmpty || vec.ar.length ≠ model_dimension then
      f1.filter (fun p => p.1 ≠ "ar")
    else f1
  if f2.isEmpty then none else some f2

/-- One bulk action yielded by `generate_documents_from_json_stream`:
the dumped source is split into its (possibly dropped) vector dict and
the remaining DTO fields. -/
structure BulkAction where
  id : String
  sourceVector : Option (List (String × List ℚ))
  sourceRest : ArticleDTO

def emitAction (model_dimension : Nat) (dto : ArticleDTO) : BulkAction :=
  { id := String.append (String.append dto.bitstream_uuid "_") (toString dto.chunk_id),
    sourceVector := dropVectorKeys model_dimension dto.abstract_vector,
    sourceRest := dto }

/-- `OpenSearchInsertion.generate_documents_from_json_stream`, with
`json.loads` as a collaborator (`none` models `json.JSONDecodeError`). -/
def generate_documents_from_json_stream (C : Collaborators)
    (parseJson : String → Option Record) (lines : List String) :
    List BulkAction :=
  lines.flatMap (fun line =>
    let line := pyStrip line
    if line = "" then []
    else
      match parseJson line with
      | none => []
      | some obj =>
        if obj.abstract.en.isEmpty && obj.abstract.ar.isEmpty then []
        else (indexing_pipeline C obj).map (emitAction C.model_dimension))

/-! ## Concrete test fixtures -/

/-- Trivial concrete collaborators for evaluating the ingestion pipeline
on closed inputs: identity sanitizer, a detector recognizing "hello" as
English, no extracted signals, a per-character tokenizer, and a
1-dimensional embedding. -/
def testCollab : Collaborators :=
  { sanitize := fun s => s,
    detect := fun s => if s = "hello" then some "en" else none,
    temporal_extract := fun _ _ => [],
    location_extract := fun _ _ => [],
    geo_points := fun _ => [],
    tokenize := fun s => List.range s.length,
    detokenize := fun _ => "hello",
    encode := fun _ => [1],
    model_dimension := 1 }

/-- An ingestion record whose abstract exists only in English. -/
def testRecord : Record :=
  { abstract := { en := ["hello"], ar := [] } }

/-- A stand-in for the serialized JSON form of `testRecord` (the JSON
codec is a collaborator, so the line's actual syntax is irrelevant). -/
def testLine : String :=
  "well-formed line with english abstract hello"

/-- A `json.loads` oracle returning `testRecord` for its serialized form
and failing on everything else. -/
def testParse : String → Option Record :=
  fun s => if s = testLine then some testRecord else none

/-- A placeholder bulk action for total list access in closed statements. -/
def dummyAction : BulkAction :=
  { id := "",
    sourceVector := none,
    sourceRest := { collection := "", bitstream_uuid := "", chunk_id := 0,
                    title := {}, abstract := {}, abstract_vector := {},
                    author := [], hasFiles := false, publicationDate := none,
                    geoReferences := [], temporalExpressions := [] } }

/-- The single bulk action emitted for `testLine`. -/
def testAction : BulkAction :=
  (generate_documents_from_json_stream testCollab testParse [testLine]).headD dummyAction

/-- A concrete geocoding oracle: times out on "Nablus", succeeds
elsewhere. -/
def testGeocode : String → GeocodeOutcome :=
  fun p => if p = "Nablus" then .timedOut else .found 1 2

/-- Concrete extracted location candidates. -/
def testLocations : List String :=
  ["Gaza", "WB", "Nablus", "Ramallah", "Jenin", "Hebron"]

/-! ## Helper lemmas: characters, `takeWhile`/`dropWhile`, splitting -/

lemma isDigitChar_not_space {c : Char} (h : isDigitChar c = true) :
    isPySpace c = false := by
  simp only [isDigitChar, Bool.or_eq_true, decide_eq_true_eq] at h
  rcases h with ((((((((h | h) | h) | h) | h) | h) | h) | h) | h) | h <;> subst h <;> decide

lemma isDigitChar_ne_hyphen {c : Char} (h : isDigitChar c = true) : c ≠ '-' := by
  simp only [isDigitChar, Bool.or_eq_true, decide_eq_true_eq] at h
  rcases h with ((((((((h | h) | h) | h) | h) | h) | h) | h) | h) | h <;> subst h <;> decide

lemma isPySpace_ne_hyphen {c : Char} (h : isPySpace c = true) : c ≠ '-' := by
  simp only [isPySpace, Bool.or_eq_true, decide_eq_true_eq] at h
  rcases h with ((((h | h) | h) | h) | h) | h <;> subst h <;> decide

lemma dropWhile_append_all {p : Char → Bool} {l1 l2 : List Char}
    (h : ∀ c ∈ l1, p c = true) :
    (l1 ++ l2).dropWhile p = l2.dropWhile p := by
  induction l1 with
  | nil => simp
  | cons a t ih =>
    simp only [List.cons_append, List.dropWhile_cons, h a (List.mem_cons_self a t),
      if_true]
    exact ih (fun c hc => h c (List.mem_cons_of_mem a hc))

lemma dropWhile_cons_neg {p : Char → Bool} {a : Char} {l : List Char}
    (h : p a = false) : (a :: l).dropWhile p = a :: l := by
  simp [List.dropWhile_cons, h]

lemma pyStripL_digits_ws {c1 c2 c3 c4 : Char} {ws : List Char}
    (h1 : isPySpace c1 = false) (h4 : isPySpace c4 = false)
    (hws : ∀ c ∈ ws, isPySpace c = true) :
    pyStripL ([c1, c2, c3, c4] ++ ws) = [c1, c2, c3, c4] := by
  unfold pyStripL
  rw [show ([c1, c2, c3, c4] ++ ws) = c1 :: ([c2, c3, c4] ++ ws) by simp]
  rw [dropWhile_cons_neg h1]
  rw [show (c1 :: ([c2, c3, c4] ++ ws)).reverse = ws.reverse ++ [c4, c3, c2, c1] by simp]
  rw [dropWhile_append_all (fun c hc => hws c (List.mem_reverse.mp hc))]
  rw [dropWhile_cons_neg h4]
  simp

lemma pyStripL_ws_digits {e1 e2 e3 e4 : Char} {ws : List Char}
    (h1 : isPySpace e1 = false) (h4 : isPySpace e4 = false)
    (hws : ∀ c ∈ ws, isPySpace c = true) :
    pyStripL (ws ++ [e1, e2, e3, e4]) = [e1, e2, e3, e4] := by
  unfold pyStripL
  rw [dropWhile_append_all hws, dropWhile_cons_neg h1]
  rw [show (e1 :: [e2, e3, e4]).reverse = [e4, e3, e2, e1] by simp]
  rw [dropWhile_cons_neg h4]
  simp

lemma pySplit_no_sep {sep : Char} {l : List Char} (h : ∀ c ∈ l, c ≠ sep) :
    pySplit sep l = [l] := by
  induction l with
  | nil => rfl
  | cons a t ih =>
    have ha : a ≠ sep := h a (List.mem_cons_self a t)
    rw [pySplit, if_neg ha, ih (fun c hc => h c (List.mem_cons_of_mem a hc))]

lemma pySplit_append_sep {sep : Char} {A B : List Char} (hA : ∀ c ∈ A, c ≠ sep) :
    pySplit sep (A ++ sep :: B) = A :: pySplit sep B := by
  induction A with
  | nil => simp [pySplit]
  | cons a t ih =>
    have ha : a ≠ sep := hA a (List.mem_cons_self a t)
    rw [List.cons_append, pySplit, if_neg ha,
      ih (fun c hc => hA c (List.mem_cons_of_mem a hc))]

/-! ## Helper lemmas: order-preserving de-duplication -/

lemma dedupeGo_sublist (l : List String) : ∀ seen, List.Sublist (dedupeGo seen l) l := by
  induction l with
  | nil => intro seen; simp [dedupeGo]
  | cons x rest ih =>
    intro seen
    by_cases hx : x ∈ seen
    · rw [dedupeGo, if_pos hx]
      exact (ih seen).cons x
    · rw [dedupeGo, if_neg hx]
      exact (ih (x :: seen)).cons₂ x

lemma dedupeGo_nodup_and_fresh (l : List String) :
    ∀ seen, (dedupeGo seen l).Nodup ∧ ∀ x ∈ dedupeGo seen l, x ∉ seen := by
  induction l with
  | nil => intro seen; simp [dedupeGo]
  | cons x rest ih =>
    intro seen
    by_cases hx : x ∈ seen
    · rw [dedupeGo, if_pos hx]
      exact ih seen
    · rw [dedupeGo, if_neg hx]
      obtain ⟨hnd, hfresh⟩ := ih (x :: seen)
      refine ⟨List.nodup_cons.mpr ⟨fun hmem => ?_, hnd⟩, ?_⟩
      · exact (hfresh x hmem) (List.mem_cons_self x seen)
      · intro y hy
        rcases List.mem_cons.mp hy with rfl | hy'
        · exact hx
        · exact fun hys => (hfresh y hy') (List.mem_cons_of_mem x hys)

lemma dedupeGo_mem (l : List String) :
    ∀ seen x, x ∈ l → x ∉ seen → x ∈ dedupeGo seen l := by
  induction l with
  | nil => intro seen x hx; simp at hx
  | cons y rest ih =>
    intro seen x hx hseen
    by_cases hy : y ∈ seen
    · rw [dedupeGo, if_pos hy]
      rcases List.mem_cons.mp hx with rfl | hx'
      · exact absurd hy hseen
      · exact ih seen x hx' hseen
    · rw [dedupeGo, if_neg hy]
      rcases List.mem_cons.mp hx with rfl | hx'
      · exact List.mem_cons_self x _
      · by_cases hxy : x = y
        · subst hxy; exact List.mem_cons_self x _
        · refine List.mem_cons_of_mem y (ih (y :: seen) x hx' ?_)
          intro hmem
          rcases List.mem_cons.mp hmem with h' | h'
          · exact hxy h'
          · exact hseen h'

lemma dedupeKeepFirst_sublist (l : List String) :
    List.Sublist (dedupeKeepFirst l) l :=
  dedupeGo_sublist l []

lemma dedupeKeepFirst_nodup (l : List String) : (dedupeKeepFirst l).Nodup :=
  (dedupeGo_nodup_and_fresh l []).1

lemma dedupeKeepFirst_mem_iff (l : List String) (x : String) :
    x ∈ dedupeKeepFirst l ↔ x ∈ l := by
  constructor
  · intro h
    exact (dedupeKeepFirst_sublist l).mem h
  · intro h
    exact dedupeGo_mem l [] x h (by simp)

/-! ## Helper lemmas: the year-range full match -/

lemma matchYearAt_some {l r : List Char} {y : Nat} (h : matchYearAt l = some (y, r)) :
    ∃ c1 c2 c3 c4, l = c1 :: c2 :: c3 :: c4 :: r
      ∧ isDigitChar c1 = true ∧ isDigitChar c2 = true
      ∧ isDigitChar c3 = true ∧ isDigitChar c4 = true
      ∧ pyInt [c1, c2, c3, c4] = y := by
  match l with
  | [] => simp [matchYearAt] at h
  | [_] => simp [matchYearAt] at h
  | [_, _] => simp [matchYearAt] at h
  | [_, _, _] => simp [matchYearAt] at h
  | c1 :: c2 :: c3 :: c4 :: rest =>
    rw [matchYearAt] at h
    split at h
    · rename_i hcond
      simp only [Option.some.injEq, Prod.mk.injEq] at h
      obtain ⟨hy, hr⟩ := h
      subst hr
      simp only [Bool.and_eq_true, Bool.or_eq_true, decide_eq_true_eq] at hcond
      obtain ⟨⟨h12, h3⟩, h4⟩ := hcond
      have h1 : isDigitChar c1 = true ∧ isDigitChar c2 = true := by
        rcases h12 with ⟨ha, hb⟩ | ⟨ha, hb⟩ <;> subst ha <;> subst hb <;> exact ⟨rfl, rfl⟩
      refine ⟨c1, c2, c3, c4, rfl, h1.1, h1.2, h3, h4, ?_⟩
      rw [← hy]
      simp [pyInt]
      ring
    · simp at h

lemma yearRangeFullmatch_some {l : List Char} {s e : Nat}
    (h : yearRangeFullmatch l = some (s, e)) :
    ∃ A B, l = A ++ '-' :: B ∧ (∀ c ∈ A, c ≠ '-') ∧ (∀ c ∈ B, c ≠ '-')
      ∧ pyInt (pyStripL A) = s ∧ pyInt (pyStripL B) = e := by
  unfold yearRangeFullmatch at h
  split at h
  · simp at h
  rename_i y1 r1 hm
  split at h
  rotate_left
  · simp at h
  rename_i c r3 hd
  split at h
  rotate_left
  · simp at h
  rename_i hc
  subst hc
  split at h
  rotate_left
  · simp at h
  rename_i y2 r5 hm2
  split at h
  rotate_left
  · simp at h
  rename_i hr5
  subst hr5
  simp only [Option.some.injEq, Prod.mk.injEq] at h
  obtain ⟨hs, he⟩ := h
  obtain ⟨c1, c2, c3, c4, hl1, d1, d2, d3, d4, hv1⟩ := matchYearAt_some hm
  obtain ⟨e1, e2, e3, e4, hl2, f1, f2, f3, f4, hv2⟩ := matchYearAt_some hm2
  have hws1 : ∀ x ∈ r1.takeWhile isPySpace, isPySpace x = true :=
    fun x hx => List.mem_takeWhile_imp hx
  have hws2 : ∀ x ∈ r3.takeWhile isPySpace, isPySpace x = true :=
    fun x hx => List.mem_takeWhile_imp hx
  have hr1 : r1 = r1.takeWhile isPySpace ++ '-' :: r3 := by
    conv_lhs => rw [← List.takeWhile_append_dropWhile (p := isPySpace) (l := r1)]
    rw [hd]
  have hr3 : r3 = r3.takeWhile isPySpace ++ [e1, e2, e3, e4] := by
    conv_lhs => rw [← List.takeWhile_append_dropWhile (p := isPySpace) (l := r3)]
    rw [hl2]
  refine ⟨[c1, c2, c3, c4] ++ r1.takeWhile isPySpace, r3, ?_, ?_, ?_, ?_, ?_⟩
  · rw [hl1]
    simp only [List.cons_append, List.append_assoc, List.nil_append]
    rw [← hr1]
  · intro x hx
    rcases List.mem_append.mp hx with hx' | hx'
    · have hdx : isDigitChar x = true := by
        simp only [List.mem_cons, List.not_mem_nil, or_false] at hx'
        rcases hx' with rfl | rfl | rfl | rfl <;> assumption
      exact isDigitChar_ne_hyphen hdx
    · exact isPySpace_ne_hyphen (hws1 x hx')
  · intro x hx
    rw [hr3] at hx
    rcases List.mem_append.mp hx with hx' | hx'
    · exact isPySpace_ne_hyphen (hws2 x hx')
    · have hdx : isDigitChar x = true := by
        simp only [List.mem_cons, List.not_mem_nil, or_false] at hx'
        rcases hx' with rfl | rfl | rfl | rfl <;> assumption
      exact isDigitChar_ne_hyphen hdx
  · rw [pyStripL_digits_ws (isDigitChar_not_space d1) (isDigitChar_not_space d4) hws1]
    rw [hv1, hs]
  · rw [hr3,
      pyStripL_ws_digits (isDigitChar_not_space f1) (isDigitChar_not_space f4) hws2]
    rw [hv2, he]

lemma expandElem_of_match {t0 : String} {s e : Nat}
    (h : yearRangeFullmatch (pyStrip t0).data = some (s, e)) :
    expandElem t0 =
      if s ≤ e ∧ e - s ≤ 50 then (List.range' s (e + 1 - s)).map (fun y => toString y)
      else [pyStrip t0] := by
  obtain ⟨A, B, hl, hA, hB, hsA, hsB⟩ := yearRangeFullmatch_some h
  simp only [expandElem]
  rw [h]
  simp only [hl, pySplit_append_sep hA, pySplit_no_sep hB, List.getD_cons_zero,
    List.getD_cons_succ, hsA, hsB]

lemma expandElem_of_nomatch {t0 : String}
    (h : yearRangeFullmatch (pyStrip t0).data = none) :
    expandElem t0 = [pyStrip t0] := by
  simp only [expandElem]
  rw [h]

/-- Claim C3 (amended): `expand_year_ranges` expands each exact
`YEAR-YEAR` match with `start ≤ end` and `end - start ≤ 50` into the
individual years; it emits inverted or over-long ranges and every other
string unchanged (up to the leading/trailing-whitespace strip the loop
applies to every element — inputs coming from `filter_safe_temporals` are
already stripped); the result is de-duplicated keeping first occurrences
in order; and `["2020", "2019-2021", "2020"]` yields
`["2020", "2019", "2021"]` — with `"2020"` once, at its first-possible
position, i.e. at the front (not `["2019", "2020", "2021"]` as the spec
example orders it). -/
theorem expand_year_ranges_spec :
    (∀ temporals : List String,
        expand_year_ranges temporals = dedupeKeepFirst (temporals.flatMap expandElem)
        ∧ List.Sublist (expand_year_ranges temporals) (temporals.flatMap expandElem)
        ∧ (expand_year_ranges temporals).Nodup
        ∧ (∀ x, x ∈ expand_year_ranges temporals ↔ x ∈ temporals.flatMap expandElem))
    ∧ (∀ t0 s e, yearRangeFullmatch (pyStrip t0).data = some (s, e) → s ≤ e → e - s ≤ 50 →
        expandElem t0 = (List.range' s (e + 1 - s)).map (fun y => toString y))
    ∧ (∀ t0 s e, yearRangeFullmatch (pyStrip t0).data = some (s, e) → ¬(s ≤ e ∧ e - s ≤ 50) →
        expandElem t0 = [pyStrip t0])
    ∧ (∀ t0, yearRangeFullmatch (pyStrip t0).data = none → expandElem t0 = [pyStrip t0])
    ∧ expand_year_ranges ["2020", "2019-2021", "2020"] = ["2020", "2019", "2021"] := by
  refine ⟨fun temporals => ⟨rfl, dedupeKeepFirst_sublist _, dedupeKeepFirst_nodup _,
      fun x => dedupeKeepFirst_mem_iff _ x⟩, ?_, ?_, ?_, rfl⟩
  · intro t0 s e h h1 h2
    rw [expandElem_of_match h, if_pos ⟨h1, h2⟩]
  · intro t0 s e h hn
    rw [expandElem_of_match h, if_neg hn]
  · intro t0 h
    exact expandElem_of_nomatch h

/-- Claim C3 counterexample: on `["2020", "2019-2021", "2020"]` the code
returns `["2020", "2019", "2021"]` (first-seen order keeps `"2020"` at
the front), not the sequence `"2019,2020,2021"` stated by the claim. -/
theorem expand_year_ranges_example_order :
    expand_year_ranges ["2020", "2019-2021", "2020"] = ["2020", "2019", "2021"]
    ∧ expand_year_ranges ["2020", "2019-2021", "2020"] ≠ ["2019", "2020", "2021"] := by
  exact ⟨rfl, by decide⟩

/-- Witness for the amended claim C3, applying it at concrete inputs. -/
theorem expand_year_ranges_spec_witness :
    expandElem "2019-2021" = ["2019", "2020", "2021"]
    ∧ expandElem "2019 - 1900" = ["2019 - 1900"]
    ∧ expandElem "recent years" = ["recent years"]
    ∧ expand_year_ranges ["2020", "2019-2021", "2020"] = ["2020", "2019", "2021"] := by
  refine ⟨?_, ?_, ?_, expand_year_ranges_spec.2.2.2.2⟩
  · have h := expand_year_ranges_spec.2.1 "2019-2021" 2019 2021 (by decide)
      (by decide) (by decide)
    rw [h]
    rfl
  · have h := expand_year_ranges_spec.2.2.1 "2019 - 1900" 2019 1900 (by decide)
      (by decide)
    rw [h]
    rfl
  · have h := expand_year_ranges_spec.2.2.2.1 "recent years" (by decide)
    rw [h]
    rfl

/-! ## Claims C1 and C2: the hybrid query builder -/

lemma geoClauses_eq_filterMap (dist : String) (refs : List GeoRefInput) :
    geoClauses dist refs =
      (refs.filterMap (fun r =>
         if (resolveRef r).1 ≠ "" then some (placeNameClause (resolveRef r).1) else none),
       refs.filterMap (fun r =>
         match (resolveRef r).2.1, (resolveRef r).2.2 with
         | some lat, some lon => some (geoDistanceLeaf dist lat lon)
         | _, _ => none)) := by
  induction refs with
  | nil => rfl
  | cons r rest ih =>
    rcases hres : resolveRef r with ⟨pn, latq, lonq⟩
    simp only [geoClauses, ih, List.filterMap_cons, hres]
    by_cases hpn : pn = "" <;> cases latq <;> cases lonq <;> simp [hpn]

lemma shouldBoostsOf_eq (temporals : List String) (refs : List GeoRefInput)
    (dist : String) :
    shouldBoostsOf temporals refs dist =
      (if (expand_year_ranges (filter_safe_temporals temporals)).isEmpty then []
       else [temporalBoostClause (expand_year_ranges (filter_safe_temporals temporals))])
      ++ (if ((geoClauses dist refs).2).isEmpty then []
          else [geoDistanceBoostClause (geoClauses dist refs).2])
      ++ (geoClauses dist refs).1 := by
  unfold shouldBoostsOf
  cases refs with
  | nil => simp [geoClauses]
  | cons r rest =>
    cases hg : geoClauses dist (r :: rest) with
    | mk pl nd => simp [hg]

/-- Claim C1: whenever a safe temporal year or a resolved geo reference is
present, every signal-derived clause of the hybrid body sits under
`bool.should` with `minimum_should_match = 0`, identically in the
semantic and lexical branches; `must` holds exactly the leaf query, no
`filter` key is emitted, and the boosts are exactly the 0.6
constant-score temporal clause over the expanded safe years, the 2.0
constant-score nested geo-distance clause over the resolved coordinates,
and one boost-5.0 nested place-name match per resolved reference with a
non-empty name. -/
theorem hybrid_boosts_only_should (lex : String) (vec : List ℚ)
    (temporals : List String) (geo_refs : List GeoRefInput)
    (size k : ℚ) (nc : Option ℤ) (dist lang : String)
    (h : expand_year_ranges (filter_safe_temporals temporals) ≠ []
         ∨ ∃ r ∈ geo_refs, (resolveRef r).1 ≠ ""
             ∨ ((resolveRef r).2.1.isSome ∧ (resolveRef r).2.2.isSome)) :
    shouldBoostsOf temporals geo_refs dist ≠ []
    ∧ build_hybrid_query_pipeline lex vec (some temporals) (some geo_refs) size k nc dist lang
      = Json.obj [
          ("size", .num size),
          ("_source", .obj [("excludes",
            .arr [.str "abstract_vector.en", .str "abstract_vector.ar"])]),
          ("query", .obj [("hybrid", .obj [("queries", .arr [
            .obj [("bool", .obj [
              ("must", .arr [knnLeaf lang vec k nc]),
              ("should", .arr (shouldBoostsOf temporals geo_refs dist)),
              ("minimum_should_match", .num 0)])],
            .obj [("bool", .obj [
              ("must", .arr [multiMatchLeaf lang lex]),
              ("should", .arr (shouldBoostsOf temporals geo_refs dist)),
              ("minimum_should_match", .num 0)])]])])])]
    ∧ shouldBoostsOf temporals geo_refs dist =
        (if (expand_year_ranges (filter_safe_temporals temporals)).isEmpty then []
         else [temporalBoostClause (expand_year_ranges (filter_safe_temporals temporals))])
        ++ (if (geo_refs.filterMap (fun r =>
                  match (resolveRef r).2.1, (resolveRef r).2.2 with
                  | some lat, some lon => some (geoDistanceLeaf dist lat lon)
                  | _, _ => none)).isEmpty then []
            else [geoDistanceBoostClause (geo_refs.filterMap (fun r =>
                  match (resolveRef r).2.1, (resolveRef r).2.2 with
                  | some lat, some lon => some (geoDistanceLeaf dist lat lon)
                  | _, _ => none))])
        ++ geo_refs.filterMap (fun r =>
             if (resolveRef r).1 ≠ "" then some (placeNameClause (resolveRef r).1)
             else none) := by
  have hchar : shouldBoostsOf temporals geo_refs dist =
      (if (expand_year_ranges (filter_safe_temporals temporals)).isEmpty then []
       else [temporalBoostClause (expand_year_ranges (filter_safe_temporals temporals))])
      ++ (if (geo_refs.filterMap (fun r =>
                match (resolveRef r).2.1, (resolveRef r).2.2 with
                | some lat, some lon => some (geoDistanceLeaf dist lat lon)
                | _, _ => none)).isEmpty then []
          else [geoDistanceBoostClause (geo_refs.filterMap (fun r =>
                match (resolveRef r).2.1, (resolveRef r).2.2 with
                | some lat, some lon => some (geoDistanceLeaf dist lat lon)
                | _, _ => none))])
      ++ geo_refs.filterMap (fun r =>
           if (resolveRef r).1 ≠ "" then some (placeNameClause (resolveRef r).1)
           else none) := by
    rw [shouldBoostsOf_eq, geoClauses_eq_filterMap]
  have hne : shouldBoostsOf temporals geo_refs dist ≠ [] := by
    rw [hchar]
    rcases h with hs | ⟨r, hr, hcase⟩
    · intro hcontra
      rcases List.append_eq_nil.mp hcontra with ⟨h12, _⟩
      rcases List.append_eq_nil.mp h12 with ⟨h1, _⟩
      rw [if_neg (by simpa [List.isEmpty_iff] using hs)] at h1
      exact List.cons_ne_nil _ _ h1
    · rcases hcase with hname | ⟨hlat, hlon⟩
      · have hmem : placeNameClause (resolveRef r).1 ∈
            geo_refs.filterMap (fun r =>
              if (resolveRef r).1 ≠ "" then some (placeNameClause (resolveRef r).1)
              else none) := by
          exact List.mem_filterMap.mpr ⟨r, hr, by rw [if_pos hname]⟩
        intro hcontra
        rcases List.append_eq_nil.mp hcontra with ⟨_, h3⟩
        rw [h3] at hmem
        exact List.not_mem_nil _ hmem
      · obtain ⟨lat, hlat'⟩ := Option.isSome_iff_exists.mp hlat
        obtain ⟨lon, hlon'⟩ := Option.isSome_iff_exists.mp hlon
        have hmem : geoDistanceLeaf dist lat lon ∈
            geo_refs.filterMap (fun r =>
              match (resolveRef r).2.1, (resolveRef r).2.2 with
              | some lat, some lon => some (geoDistanceLeaf dist lat lon)
              | _, _ => none) := by
          exact List.mem_filterMap.mpr ⟨r, hr, by rw [hlat', hlon']⟩
        intro hcontra
        rcases List.append_eq_nil.mp hcontra with ⟨h12, _⟩
        rcases List.append_eq_nil.mp h12 with ⟨_, h2⟩
        have : ¬ (geo_refs.filterMap (fun r =>
            match (resolveRef r).2.1, (resolveRef r).2.2 with
            | some lat, some lon => some (geoDistanceLeaf dist lat lon)
            | _, _ => none)).isEmpty := by
          rw [List.isEmpty_iff]
          exact List.ne_nil_of_mem hmem
        rw [if_neg this] at h2
        exact List.cons_ne_nil _ _ h2
  refine ⟨hne, ?_, hchar⟩
  have hsbe : (shouldBoostsOf temporals geo_refs dist).isEmpty = false := by
    simpa [List.isEmpty_iff] using hne
  simp only [build_hybrid_query_pipeline, Option.getD_some, wrap_with_filters,
    List.isEmpty_nil, hsbe, Bool.true_and, Bool.false_eq_true, if_false,
    if_true, List.nil_append, List.singleton_append, List.cons_append,
    List.append_nil]

/-- Witness for claim C1 at a concrete query with one safe year and one
resolved geo reference. -/
theorem hybrid_boosts_only_should_witness :
    shouldBoostsOf ["2019"] [{ placeName := some "Gaza", lat := some 31, lon := some 34 }] "50km" ≠ []
    ∧ build_hybrid_query_pipeline "q" [1]
        (some ["2019"]) (some [{ placeName := some "Gaza", lat := some 31, lon := some 34 }])
        10 50 (some 100) "50km" "en"
      = Json.obj [
          ("size", .num 10),
          ("_source", .obj [("excludes",
            .arr [.str "abstract_vector.en", .str "abstract_vector.ar"])]),
          ("query", .obj [("hybrid", .obj [("queries", .arr [
            .obj [("bool", .obj [
              ("must", .arr [knnLeaf "en" [1] 50 (some 100)]),
              ("should", .arr (shouldBoostsOf ["2019"]
                [{ placeName := some "Gaza", lat := some 31, lon := some 34 }] "50km")),
              ("minimum_should_match", .num 0)])],
            .obj [("bool", .obj [
              ("must", .arr [multiMatchLeaf "en" "q"]),
              ("should", .arr (shouldBoostsOf ["2019"]
                [{ placeName := some "Gaza", lat := some 31, lon := some 34 }] "50km")),
              ("minimum_should_match", .num 0)])]])])])]
    ∧ shouldBoostsOf ["2019"]
        [{ placeName := some "Gaza", lat := some 31, lon := some 34 }] "50km" =
        (if (expand_year_ranges (filter_safe_temporals ["2019"])).isEmpty then []
         else [temporalBoostClause (expand_year_ranges (filter_safe_temporals ["2019"]))])
        ++ (if ([{ placeName := some "Gaza", lat := some 31, lon := some 34 }].filterMap
                  (fun r : GeoRefInput =>
                  match (resolveRef r).2.1, (resolveRef r).2.2 with
                  | some lat, some lon => some (geoDistanceLeaf "50km" lat lon)
                  | _, _ => none)).isEmpty then []
            else [geoDistanceBoostClause
                  ([{ placeName := some "Gaza", lat := some 31, lon := some 34 }].filterMap
                  (fun r : GeoRefInput =>
                  match (resolveRef r).2.1, (resolveRef r).2.2 with
                  | some lat, some lon => some (geoDistanceLeaf "50km" lat lon)
                  | _, _ => none))])
        ++ [{ placeName := some "Gaza", lat := some 31, lon := some 34 }].filterMap
             (fun r : GeoRefInput =>
             if (resolveRef r).1 ≠ "" then some (placeNameClause (resolveRef r).1)
             else none) :=
  hybrid_boosts_only_should "q" [1] ["2019"]
    [{ placeName := some "Gaza", lat := some 31, lon := some 34 }]
    10 50 (some 100) "50km" "en" (Or.inl (by decide))

/-- Claim C2: with `None`/empty temporal expressions and `None`/empty geo
references the two hybrid branches are exactly the bare `knn` and
`multi_match` leaves — no `bool` wrapper, no `should`, no `filter`. -/
theorem hybrid_no_signals_bare (lex : String) (vec : List ℚ)
    (temporals? : Option (List String)) (geo_refs? : Option (List GeoRefInput))
    (size k : ℚ) (nc : Option ℤ) (dist lang : String)
    (ht : temporals? = none ∨ temporals? = some [])
    (hg : geo_refs? = none ∨ geo_refs? = some []) :
    build_hybrid_query_pipeline lex vec temporals? geo_refs? size k nc dist lang
      = Json.obj [
          ("size", .num size),
          ("_source", .obj [("excludes",
            .arr [.str "abstract_vector.en", .str "abstract_vector.ar"])]),
          ("query", .obj [("hybrid", .obj [("queries", .arr [
            knnLeaf lang vec k nc,
            multiMatchLeaf lang lex])])])] := by
  have h1 : temporals?.getD [] = [] := by rcases ht with rfl | rfl <;> rfl
  have h2 : geo_refs?.getD [] = [] := by rcases hg with rfl | rfl <;> rfl
  simp only [build_hybrid_query_pipeline, h1, h2]
  rfl

/-- Witness for claim C2 at a concrete query with `None` signals. -/
theorem hybrid_no_signals_bare_witness :
    build_hybrid_query_pipeline "q" [1, 2] none none 10 50 (some 100) "50km" "en"
      = Json.obj [
          ("size", .num 10),
          ("_source", .obj [("excludes",
            .arr [.str "abstract_vector.en", .str "abstract_vector.ar"])]),
          ("query", .obj [("hybrid", .obj [("queries", .arr [
            knnLeaf "en" [1, 2] 50 (some 100),
            multiMatchLeaf "en" "q"])])])] :=
  hybrid_no_signals_bare "q" [1, 2] none none 10 50 (some 100) "50km" "en"
    (Or.inl rfl) (Or.inl rfl)

/-! ## Claim C6: the suggest query -/

/-- Claim C6 counterexample: the suggest body's `bool` query carries no
`minimum_should_match` key at all, so in particular it is not `1` as the
claim states (OpenSearch then applies its default of 1 for a
should-only bool query). -/
theorem suggest_query_no_msm_key :
    (((build_suggest_query "cl" 60).getKey "query").bind (fun j => j.getKey "bool")).bind
        (fun j => j.getKey "minimum_should_match") = none
    ∧ ¬ ((((build_suggest_query "cl" 60).getKey "query").bind (fun j => j.getKey "bool")).bind
        (fun j => j.getKey "minimum_should_match") = some (.num 1)) := by
  have h : (((build_suggest_query "cl" 60).getKey "query").bind (fun j => j.getKey "bool")).bind
      (fun j => j.getKey "minimum_should_match") = none := rfl
  refine ⟨h, ?_⟩
  rw [h]
  simp

/-- Claim C6 (amended): for every prefix and fetch size, the suggest body
restricts `_source` to title and author and is a bool query with exactly
two `should` clauses — a `phrase_prefix` `multi_match` with boost 3.0
over the language- and author-weighted fields, and a fuzzy `multi_match`
with `fuzziness=AUTO`, `prefix_length=2` and `max_expansions=50` — while
`minimum_should_match` is not explicitly set (the body relies on the
engine's default of 1 for a should-only bool query). -/
theorem build_suggest_query_shape (pre : String) (fetch_size : ℚ) :
    (build_suggest_query pre fetch_size).getKey "_source"
      = some (.arr [.str "title", .str "author"])
    ∧ (build_suggest_query pre fetch_size).getKey "size" = some (.num fetch_size)
    ∧ (build_suggest_query pre fetch_size).getKey "query"
      = some (.obj [("bool", .obj [("should", .arr [
          .obj [("multi_match", .obj [
            ("query", .str (pyStrip pre)),
            ("type", .str "phrase_prefix"),
            ("fields", .arr [.str "title.en^4", .str "title.ar^4", .str "author^2"]),
            ("boost", .num 3.0)])],
          .obj [("multi_match", .obj [
            ("query", .str (pyStrip pre)),
            ("fields", .arr [.str "title.en^4", .str "title.ar^4", .str "author^2"]),
            ("operator", .str "and"),
            ("fuzziness", .str "AUTO"),
            ("prefix_length", .num 2),
            ("max_expansions", .num 50)])]])])])
    ∧ (((build_suggest_query pre fetch_size).getKey "query").bind
        (fun j => j.getKey "bool")).bind (fun j => j.getKey "minimum_should_match") = none :=
  ⟨rfl, rfl, rfl, rfl⟩

/-! ## Claim C5: the lexical text builder -/

/-- Claim C5: `build_lexical_text` never removes extracted location
mentions (its `locations` argument does not influence the output at all:
phrase removal is called with an empty location list), its final step
strips all year-like tokens and ranges from the text, and on
`"funding from 2013 to 2019 in Gaza"` with temporals
`["2013 to 2019"]` and locations `["Gaza"]` it returns
`"funding from in Gaza"`, which contains `"Gaza"` and contains no
4-digit year (`(19|20)dd`) substring. -/
theorem build_lexical_text_spec :
    (∀ (q : String) (t locs locs' : List String),
        build_lexical_text q t locs = build_lexical_text q t locs')
    ∧ (∀ (q : String) (t locs : List String),
        build_lexical_text q t locs =
          strip_year_like_tokens (clean_query_text q
            ((dedupeKeepFirst (t.map pyStrip)).filter
              (fun x => x ≠ "" && x ∉ expand_year_ranges (filter_safe_temporals t))) []))
    ∧ build_lexical_text "funding from 2013 to 2019 in Gaza" ["2013 to 2019"] ["Gaza"]
        = "funding from in Gaza"
    ∧ containsSub "Gaza".data
        (build_lexical_text "funding from 2013 to 2019 in Gaza" ["2013 to 2019"] ["Gaza"]).data
        = true
    ∧ hasYearSub
        (build_lexical_text "funding from 2013 to 2019 in Gaza" ["2013 to 2019"] ["Gaza"]).data
        = false :=
  ⟨fun _ _ _ _ => rfl, fun _ _ _ => rfl, rfl, rfl, rfl⟩

/-! ## Claim C4: the geo-resolution loop of `extractors` -/

lemma extractorsGeoGo_spec (g : String → GeocodeOutcome) (locs : List String) :
    ∀ acc : List GeoRefInput, acc.length < 3 →
      (extractorsGeoGo g acc locs).1 =
        (acc ++ (locs.filter is_probable_location).filterMap
          (fun l => (geocode_single_place g l).map toGeoRefInput)).take 3
      ∧ ∃ rest, locs.filter is_probable_location = (extractorsGeoGo g acc locs).2 ++ rest := by
  induction locs with
  | nil =>
    intro acc hacc
    refine ⟨?_, [], rfl⟩
    simp [extractorsGeoGo, List.take_of_length_le (Nat.le_of_lt hacc)]
  | cons l rest ih =>
    intro acc hacc
    by_cases hp : is_probable_location l
    · rw [extractorsGeoGo]
      rw [if_neg (by simpa using hp)]
      cases hgc : geocode_single_place g l with
      | none =>
        obtain ⟨h1, rest', h2⟩ := ih acc hacc
        constructor
        · simpa [List.filter_cons, hp, hgc, List.filterMap_cons] using h1
        · refine ⟨rest', ?_⟩
          simpa [List.filter_cons, hp, hgc] using congrArg (List.cons l) h2
      | some geo =>
        dsimp only
        by_cases hlen : 3 ≤ (acc ++ [toGeoRefInput geo]).length
        · rw [if_pos hlen]
          have hacc2 : acc.length = 2 := by
            simp at hlen
            omega
          constructor
          · simp only [List.filter_cons, hp, if_pos, List.filterMap_cons, hgc,
              Option.map_some]
            rw [List.take_append_eq_append_take]
            rw [List.take_of_length_le (by omega : acc.length ≤ 3), hacc2]
            rfl
          · exact ⟨rest.filter is_probable_location, by simp [List.filter_cons, hp]⟩
        · rw [if_neg hlen]
          have hlt : (acc ++ [toGeoRefInput geo]).length < 3 := by omega
          obtain ⟨h1, rest', h2⟩ := ih (acc ++ [toGeoRefInput geo]) hlt
          constructor
          · simpa [List.filter_cons, hp, List.filterMap_cons, hgc] using h1
          · refine ⟨rest', ?_⟩
            simpa [List.filter_cons, hp, hgc] using congrArg (List.cons l) h2
    · rw [extractorsGeoGo, if_pos (by simpa using hp)]
      obtain ⟨h1, rest', h2⟩ := ih acc hacc
      exact ⟨by simpa [List.filter_cons, hp] using h1,
        rest', by simpa [List.filter_cons, hp] using h2⟩

/-- Claim C4: `extractors` walks the extracted location candidates in
input order, geocodes each plausible candidate at most once (the call log
is a prefix of the plausible candidates), accumulates resolved
`placeName`/`lat`/`lon` references, stops at 3 (so the returned list has
length at most 3), and every geocoding failure — no result, timeout,
service unavailable, service error, unexpected exception — collapses to
`none` from `_geocode_single_place`, skipping the candidate without
aborting. -/
theorem extractors_geo_spec (te le : String → String → List String)
    (g : String → GeocodeOutcome) (q lang : String) :
    (extractors te le g q lang).2.1 =
      (((le q lang).filter is_probable_location).filterMap
        (fun l => (geocode_single_place g l).map toGeoRefInput)).take 3
    ∧ (extractors te le g q lang).2.1.length ≤ 3
    ∧ (∃ rest, (le q lang).filter is_probable_location
        = (extractorsGeoGo g [] (le q lang)).2 ++ rest)
    ∧ (∀ p, g p = .noResult ∨ g p = .timedOut ∨ g p = .unavailable
        ∨ g p = .serviceError ∨ g p = .unexpectedError →
        geocode_single_place g p = none) := by
  obtain ⟨h1, h2⟩ := extractorsGeoGo_spec g (le q lang) [] (by simp)
  refine ⟨by simpa [extractors] using h1, ?_, h2, ?_⟩
  · have := congrArg List.length ((by simpa [extractors] using h1) :
      (extractors te le g q lang).2.1 = _)
    rw [this]
    exact List.length_take_le 3 _
  · intro p hp
    rcases hp with h | h | h | h | h <;> simp [geocode_single_place, h]

/-- Witness for claim C4 on a concrete candidate list where "WB" is
implausible, "Nablus" times out, and the loop stops after three
successes, never calling the geocoder on "Hebron". -/
theorem extractors_geo_spec_witness :
    (extractors (fun _ _ => []) (fun _ _ => testLocations) testGeocode "q" "en").2.1 =
      ((testLocations.filter is_probable_location).filterMap
        (fun l => (geocode_single_place testGeocode l).map toGeoRefInput)).take 3
    ∧ (extractors (fun _ _ => []) (fun _ _ => testLocations) testGeocode "q" "en").2.1.length ≤ 3
    ∧ (∃ rest, testLocations.filter is_probable_location
        = (extractorsGeoGo testGeocode [] testLocations).2 ++ rest)
    ∧ (∀ p, testGeocode p = .noResult ∨ testGeocode p = .timedOut
        ∨ testGeocode p = .unavailable ∨ testGeocode p = .serviceError
        ∨ testGeocode p = .unexpectedError →
        geocode_single_place testGeocode p = none) :=
  extractors_geo_spec (fun _ _ => []) (fun _ _ => testLocations) testGeocode "q" "en"

/-! ## Claims C8 and C10: the chunking loop -/

lemma pySlice_natCast (l : List α) (a b : Nat) (hb : b ≤ l.length) :
    pySlice l (a : Int) (b : Int) = (l.take b).drop (min a l.length) := by
  unfold pySlice pyNormIdx
  rw [if_neg (by omega), if_neg (by omega)]
  simp [Nat.min_eq_left hb]

lemma chunkLoopFuel_none_of_nonpos (token_ids : List Nat) (max_tokens overlap : Nat)
    (hov : max_tokens ≤ overlap) (hn : 0 < token_ids.length) :
    ∀ (fuel : Nat) (start : Int), start ≤ 0 →
      chunkLoopFuel token_ids max_tokens overlap fuel start = none := by
  have hlen : (0 : Int) < (token_ids.length : Int) := by exact_mod_cast hn
  intro fuel
  induction fuel with
  | zero =>
    intro start hs
    rw [chunkLoopFuel, if_pos (by omega)]
  | succ f ih =>
    intro start hs
    rw [chunkLoopFuel, if_pos (by omega)]
    have hstep : ((max_tokens : Int) - (overlap : Int)) ≤ 0 := by
      have : (max_tokens : Int) ≤ (overlap : Int) := by exact_mod_cast hov
      omega
    rw [ih (start + ((max_tokens : Int) - (overlap : Int))) (by omega)]
    rfl

lemma chunkLoopFuel_eq_windowsFrom (token_ids : List Nat) (max_tokens overlap : Nat)
    (hov : overlap < max_tokens) :
    ∀ (fuel : Nat) (start : Nat), token_ids.length - start ≤ fuel →
      chunkLoopFuel token_ids max_tokens overlap fuel (start : Int)
        = some (windowsFrom token_ids max_tokens (max_tokens - overlap) start) := by
  intro fuel
  induction fuel with
  | zero =>
    intro start h
    rw [chunkLoopFuel, if_neg (by exact_mod_cast (by omega : ¬ start < token_ids.length)),
      windowsFrom, dif_neg (by omega)]
  | succ f ih =>
    intro start h
    by_cases hs : start < token_ids.length
    · rw [chunkLoopFuel, if_pos (by exact_mod_cast hs)]
      have hcast : (start : Int) + ((max_tokens : Int) - (overlap : Int))
          = ((start + (max_tokens - overlap) : Nat) : Int) := by
        push_cast
        omega
      rw [hcast, ih (start + (max_tokens - overlap)) (by omega)]
      conv_rhs => rw [windowsFrom]
      rw [dif_pos hs, Nat.max_eq_left (by omega : 1 ≤ max_tokens - overlap)]
      have hmin : min ((start : Int) + (max_tokens : Int)) ((token_ids.length : Int))
          = ((min (start + max_tokens) token_ids.length : Nat) : Int) := by
        push_cast
        omega
      rw [hmin, pySlice_natCast token_ids start (min (start + max_tokens) token_ids.length)
        (Nat.min_le_right _ _)]
      rw [Nat.min_eq_left (by omega : start ≤ token_ids.length)]
      rfl
    · rw [chunkLoopFuel, if_neg (by exact_mod_cast hs), windowsFrom, dif_neg hs]

lemma windowsFrom_spec (token_ids : List Nat) (max_tokens step : Nat) (hstep : 1 ≤ step) :
    ∀ start, ∃ m,
      windowsFrom token_ids max_tokens step start
        = (List.range m).map (fun i =>
            (token_ids.take (min (start + i * step + max_tokens) token_ids.length)).drop
              (start + i * step))
      ∧ (∀ i < m, start + i * step < token_ids.length)
      ∧ (∀ i, start + i * step < token_ids.length → i < m) := by
  suffices H : ∀ k start, token_ids.length - start ≤ k → ∃ m,
      windowsFrom token_ids max_tokens step start
        = (List.range m).map (fun i =>
            (token_ids.take (min (start + i * step + max_tokens) token_ids.length)).drop
              (start + i * step))
      ∧ (∀ i < m, start + i * step < token_ids.length)
      ∧ (∀ i, start + i * step < token_ids.length → i < m) by
    intro start
    exact H (token_ids.length - start) start le_rfl
  intro k
  induction k with
  | zero =>
    intro start h
    refine ⟨0, ?_, by omega, ?_⟩
    · rw [windowsFrom, dif_neg (by omega)]
      rfl
    · intro i hi
      exact absurd (lt_of_le_of_lt (Nat.le_add_right start (i * step)) hi) (by omega)
  | succ k ih =>
    intro start h
    by_cases hs : start < token_ids.length
    · obtain ⟨m, hm, hlt, hge⟩ := ih (start + step) (by omega)
      refine ⟨m + 1, ?_, ?_, ?_⟩
      · rw [windowsFrom, dif_pos hs, Nat.max_eq_left hstep, hm,
          List.range_succ_eq_map, List.map_cons, List.map_map]
        refine congrArg₂ List.cons ?_ ?_
        · simp
        · apply List.map_congr_left
          intro i _
          simp only [Function.comp_apply]
          have e1 : start + step + i * step = start + (i + 1) * step := by ring
          rw [e1]
      · intro i hi
        match i with
        | 0 => simpa using hs
        | j + 1 =>
          have harith : start + (j + 1) * step = start + step + j * step := by ring
          rw [harith]
          exact hlt j (by omega)
      · intro i hi
        match i with
        | 0 => omega
        | j + 1 =>
          have harith : start + (j + 1) * step = start + step + j * step := by ring
          rw [harith] at hi
          exact Nat.succ_lt_succ (hge j hi)
    · refine ⟨0, ?_, by omega, ?_⟩
      · rw [windowsFrom, dif_neg hs]
        rfl
      · intro i hi
        exact absurd (lt_of_le_of_lt (Nat.le_add_right start (i * step)) hi) hs

/-- Claim C8: on a text tokenizing to exactly 1000 tokens,
`chunk_text` with `max_tokens = 450` and `overlap = 50` produces exactly
three windows at token offsets 0, 400 and 800 (advancing by
`max_tokens - overlap = 400`), of lengths 450, 450 and 200 (all at most
450); and in general, for `overlap < max_tokens`, the window start
offsets are exactly the multiples of `max_tokens - overlap` below the
token count, the window at `start` covering tokens
`[start, min(start + max_tokens, n))`. -/
theorem chunk_text_1000_tokens (tokenize : String → List Nat)
    (decode : List Nat → String) (text : String)
    (h1 : text ≠ "") (h2 : (tokenize text).length = 1000) :
    chunk_text tokenize decode text 450 50
      = some ([(tokenize text).take 450,
               ((tokenize text).take 850).drop 400,
               ((tokenize text).take 1000).drop 800].map decode)
    ∧ ((tokenize text).take 450).length = 450
    ∧ (((tokenize text).take 850).drop 400).length = 450
    ∧ (((tokenize text).take 1000).drop 800).length = 200
    ∧ (∀ (toks : List Nat) (mt ov : Nat), ov < mt →
        ∃ m, chunkLoopFuel toks mt ov toks.length 0
            = some ((List.range m).map (fun i =>
                (toks.take (min (i * (mt - ov) + mt) toks.length)).drop (i * (mt - ov))))
          ∧ (∀ i < m, i * (mt - ov) < toks.length)
          ∧ (∀ i, i * (mt - ov) < toks.length → i < m)) := by
  have key : windowsFrom (tokenize text) 450 (450 - 50) 0
      = [(tokenize text).take 450,
         ((tokenize text).take 850).drop 400,
         ((tokenize text).take 1000).drop 800] := by
    rw [windowsFrom, dif_pos (by rw [h2]; norm_num)]
    rw [windowsFrom, dif_pos (by rw [h2]; norm_num)]
    rw [windowsFrom, dif_pos (by rw [h2]; norm_num)]
    rw [windowsFrom, dif_neg (by rw [h2]; norm_num)]
    rw [h2]
    norm_num
  have hloop := chunkLoopFuel_eq_windowsFrom (tokenize text) 450 50 (by norm_num)
    ((tokenize text).length) 0 (by omega)
  simp only [Nat.cast_zero] at hloop
  refine ⟨?_, ?_, ?_, ?_, ?_⟩
  · simp only [chunk_text, if_neg h1]
    rw [hloop, key]
    rfl
  · simp [List.length_take, h2]
  · simp [List.length_take, List.length_drop, h2]
  · simp [List.length_take, List.length_drop, h2]
  · intro toks mt ov hov
    obtain ⟨m, hm, hlt, hge⟩ := windowsFrom_spec toks mt (mt - ov) (by omega) 0
    have hl := chunkLoopFuel_eq_windowsFrom toks mt ov hov toks.length 0 (by omega)
    simp only [Nat.cast_zero] at hl
    refine ⟨m, ?_, by simpa using hlt, by simpa using hge⟩
    rw [hl, hm]
    refine congrArg some (List.map_congr_left ?_)
    intro i _
    simp

/-- Witness for claim C8 at a concrete 1000-token tokenizer. -/
theorem chunk_text_1000_tokens_witness :
    chunk_text (fun _ => List.range 1000) (fun _ => "x") "t" 450 50
      = some ([((List.range 1000 : List Nat)).take 450,
               (((List.range 1000 : List Nat)).take 850).drop 400,
               (((List.range 1000 : List Nat)).take 1000).drop 800].map (fun _ => "x"))
    ∧ (((List.range 1000 : List Nat)).take 450).length = 450
    ∧ ((((List.range 1000 : List Nat)).take 850).drop 400).length = 450
    ∧ ((((List.range 1000 : List Nat)).take 1000).drop 800).length = 200
    ∧ (∀ (toks : List Nat) (mt ov : Nat), ov < mt →
        ∃ m, chunkLoopFuel toks mt ov toks.length 0
            = some ((List.range m).map (fun i =>
                (toks.take (min (i * (mt - ov) + mt) toks.length)).drop (i * (mt - ov))))
          ∧ (∀ i < m, i * (mt - ov) < toks.length)
          ∧ (∀ i, i * (mt - ov) < toks.length → i < m)) :=
  chunk_text_1000_tokens (fun _ => List.range 1000) (fun _ => "x") "t"
    (by decide) (by simp)

/-- Claim C10: the chunking loop terminates for every input when
`overlap < max_tokens` (a fuel of one iteration per token is enough, and
`chunk_text` always returns a value), while for `overlap ≥ max_tokens` on
a text with at least one token the loop never makes progress — no amount
of fuel completes it; the defaults `max_tokens = 450`, `overlap = 50`
satisfy the precondition. -/
theorem chunk_text_terminates :
    (∀ (toks : List Nat) (mt ov : Nat), ov < mt →
        ∃ w, chunkLoopFuel toks mt ov toks.length 0 = some w)
    ∧ (∀ (tokenize : String → List Nat) (decode : List Nat → String) (text : String)
        (mt ov : Nat), ov < mt → ∃ ws, chunk_text tokenize decode text mt ov = some ws)
    ∧ (∀ (toks : List Nat) (mt ov : Nat), mt ≤ ov → 0 < toks.length →
        ∀ fuel, chunkLoopFuel toks mt ov fuel 0 = none)
    ∧ (50 : Nat) < 450 := by
  refine ⟨?_, ?_, ?_, by norm_num⟩
  · intro toks mt ov hov
    have h := chunkLoopFuel_eq_windowsFrom toks mt ov hov toks.length 0 (by omega)
    simp only [Nat.cast_zero] at h
    exact ⟨_, h⟩
  · intro tokenize decode text mt ov hov
    by_cases ht : text = ""
    · exact ⟨[], by rw [chunk_text, if_pos ht]⟩
    · have h := chunkLoopFuel_eq_windowsFrom (tokenize text) mt ov hov
        (tokenize text).length 0 (by omega)
      simp only [Nat.cast_zero] at h
      refine ⟨(windowsFrom (tokenize text) mt (mt - ov) 0).map decode, ?_⟩
      simp only [chunk_text, if_neg ht]
      rw [h]
      rfl
  · intro toks mt ov hov hn fuel
    exact chunkLoopFuel_none_of_nonpos toks mt ov hov hn fuel 0 le_rfl

/-- Witness for claim C10: a terminating run with `overlap < max_tokens`
and a run that exhausts any fuel with `overlap ≥ max_tokens`. -/
theorem chunk_text_terminates_witness :
    (∃ w, chunkLoopFuel [0, 1, 2] 2 1 ([0, 1, 2] : List Nat).length 0 = some w)
    ∧ (∃ ws, chunk_text (fun _ => [0, 1, 2]) (fun l => toString l.length) "t" 2 1 = some ws)
    ∧ chunkLoopFuel [0] 1 2 7 0 = none
    ∧ (50 : Nat) < 450 := by
  obtain ⟨a, b, c, d⟩ := chunk_text_terminates
  exact ⟨a [0, 1, 2] 2 1 (by omega), b (fun _ => [0, 1, 2]) (fun l => toString l.length) "t" 2 1
    (by omega), c [0] 1 2 (by omega) (by simp) 7, d⟩

/-! ## Claims C7 and C9: the ingestion pipeline -/

lemma indexing_pipeline_vector (C : Collaborators) (obj : Record) (dto : ArticleDTO)
    (h : dto ∈ indexing_pipeline C obj) :
    dto.abstract_vector = buildAbstractVector C.encode dto.abstract := by
  simp only [indexing_pipeline, List.mem_map] at h
  obtain ⟨p, _, rfl⟩ := h
  rfl

lemma dropVectorKeys_no_ar (dim : Nat) (v : LocalizedVector) (h : v.ar = []) :
    ∀ fields, dropVectorKeys dim v = some fields →
      fields.find? (fun p => p.1 = "ar") = none := by
  intro fields hf
  by_cases h1 : v.en = [] ∨ ¬ v.en.length = dim
  · have hnone : dropVectorKeys dim v = none := by
      simp [dropVectorKeys, h, h1]
    rw [hnone] at hf
    exact absurd hf (by simp)
  · have hsome : dropVectorKeys dim v = some [("en", v.en)] := by
      simp [dropVectorKeys, h, h1]
    rw [hsome] at hf
    injection hf with hf2
    subst hf2
    rfl

/-- Claim C7 (amended): for every emitted bulk action whose chunk has a
(truthy) English abstract text but no truthy Arabic text, the
`LocalizedVector` built for the chunk carries an EMPTY Arabic vector
(`[]`) — the DTO's fields are plain lists with empty defaults, so
absence is represented by the null-length placeholder the original claim
forbids — and the bulk-indexing step then drops that empty Arabic vector
from the emitted source, so the emitted document has no Arabic vector
key. -/
theorem chunk_vector_en_only (C : Collaborators) (parse : String → Option Record)
    (lines : List String) (a : BulkAction)
    (ha : a ∈ generate_documents_from_json_stream C parse lines)
    (hen : pyTruthyStr a.sourceRest.abstract.en = true)
    (har : pyTruthyStr a.sourceRest.abstract.ar = false) :
    a.sourceRest.abstract_vector.ar = []
    ∧ (∀ fields, a.sourceVector = some fields →
        fields.find? (fun p => p.1 = "ar") = none) := by
  simp only [generate_documents_from_json_stream, List.mem_flatMap] at ha
  obtain ⟨line, _, hmem⟩ := ha
  split at hmem
  · simp at hmem
  split at hmem
  · simp at hmem
  split at hmem
  · simp at hmem
  rename_i obj _ _
  rw [List.mem_map] at hmem
  obtain ⟨dto, hdto, rfl⟩ := hmem
  have hvec := indexing_pipeline_vector C obj dto hdto
  have harvec : dto.abstract_vector.ar = [] := by
    rw [hvec]
    simp only [buildAbstractVector]
    rw [if_neg (by simpa [emitAction] using har)]
  exact ⟨harvec, dropVectorKeys_no_ar C.model_dimension dto.abstract_vector harvec⟩

/-- Claim C7 counterexample: on a record with an English-only abstract,
the `LocalizedVector` built for the chunk is `{en := [1], ar := []}` —
the Arabic side is a null-length placeholder vector, not an absent
value (the DTO cannot even represent absence), contradicting the claim
as stated. -/
theorem chunk_vector_en_only_counterexample :
    ((indexing_pipeline testCollab testRecord).map (fun d => d.abstract_vector))
      = [{ en := [1], ar := [] }]
    ∧ ((indexing_pipeline testCollab testRecord).map (fun d => d.abstract.en))
      = [some "hello"]
    ∧ ((indexing_pipeline testCollab testRecord).map (fun d => d.abstract.ar))
      = [none] :=
  ⟨rfl, rfl, rfl⟩

/-- Witness for the amended claim C7 on the concrete English-only
record: the built vector's Arabic side is `[]` and the emitted source's
vector dict holds only the English key. -/
theorem chunk_vector_en_only_witness :
    testAction.sourceRest.abstract_vector.ar = []
    ∧ testAction.sourceVector = some [("en", [1])]
    ∧ ([(("en", [1]) : String × List ℚ)].find? (fun p => p.1 = "ar")) = none := by
  have h := chunk_vector_en_only testCollab testParse [testLine] testAction
    (by exact List.mem_cons_self _ _) rfl rfl
  exact ⟨h.1, rfl, h.2 [("en", [1])] rfl⟩

/-- Claim C9: a malformed line (one `json.loads` rejects) yields no
document and does not prevent the surrounding lines from being
processed: the stream over `xs ++ bad :: ys` equals the stream over `xs`
followed by the stream over `ys`, and the malformed line alone yields
nothing. -/
theorem malformed_lines_skipped (C : Collaborators) (parse : String → Option Record)
    (xs ys : List String) (bad : String)
    (hbad : parse (pyStrip bad) = none) :
    generate_documents_from_json_stream C parse (xs ++ bad :: ys)
      = generate_documents_from_json_stream C parse xs
        ++ generate_documents_from_json_stream C parse ys
    ∧ generate_documents_from_json_stream C parse [bad] = [] := by
  have hfbad : ∀ zs, generate_documents_from_json_stream C parse (bad :: zs)
      = generate_documents_from_json_stream C parse zs := by
    intro zs
    simp only [generate_documents_from_json_stream, List.flatMap_cons]
    by_cases h0 : pyStrip bad = ""
    · rw [if_pos h0, List.nil_append]
    · rw [if_neg h0, hbad, List.nil_append]
  constructor
  · simp only [generate_documents_from_json_stream, List.flatMap_append] at hfbad ⊢
    have := hfbad ys
    simp only [List.flatMap_cons] at this
    rw [show ((bad :: ys).flatMap _ = ys.flatMap _) from hfbad ys]
  · have := hfbad []
    simpa [generate_documents_from_json_stream] using this

/-- Witness for claim C9: a malformed line between two well-formed
copies of the test line is skipped and both neighbours are processed. -/
theorem malformed_lines_skipped_witness :
    generate_documents_from_json_stream testCollab testParse
        ([testLine] ++ "malformed line" :: [testLine])
      = generate_documents_from_json_stream testCollab testParse [testLine]
        ++ generate_documents_from_json_stream testCollab testParse [testLine]
    ∧ generate_documents_from_json_stream testCollab testParse ["malformed line"] = [] :=
  malformed_lines_skipped testCollab testParse [testLine] [testLine] "malformed line" rfl

end NajahIR
